import Mathlib

/-!
Shallow embedding of the Magic Market binary prediction-market program
(src/programs/prediction_market/src/lib.rs) and proofs about its claims.

Modelling conventions:
* Rust `u64` values are `Nat`s; every `u64` addition/multiplication that the
  source performs is wrapped with `% 2^64` (release-mode wrapping semantics),
  as is every `as u64` downcast from `u128`.  `u128` intermediates
  (`as u128 * as u128`) are exact `Nat` products of values `< 2^64`; the one
  `u128` addition (the average-price numerator) is wrapped with `% 2^128`.
  Rust `saturating_sub` is `Nat` subtraction (which is truncated), and the
  remaining `u64` subtractions in the source never underflow on the paths
  where they occur.
* `Pubkey`s are `Nat`s; `Pubkey::default()` is `0`.  Account `bump` seeds and
  the redundant back-pointer fields (`Pool.market`, `Position.market`,
  `LPPosition.pool`, `Market.pyth_price_account`) are bookkeeping for the
  storage layer and are omitted.
* Each instruction handler becomes a function `State -> State × Option
  MarketError`, mirroring the source's `require!` checks in order; an error
  returns the state as mutated so far (in this program all checks precede all
  mutations, which is exactly what claim C4 asserts).  The external SOL
  transfers (`system_program::transfer`) move lamports into/out of a single
  `vault : Nat` balance and are treated as atomic and infallible, per the
  external-interface contract of the spec.
* `Clock::get()?.unix_timestamp` becomes an explicit `now : Int` parameter;
  the Pyth oracle read (`account_info_to_feed` plus
  `get_price_no_older_than`) becomes an `Option PythPrice` parameter, `none`
  meaning the feed was unavailable or stale.
-/

namespace PredictionMarket

/-- 2^64, the modulus of Rust `u64` arithmetic. -/
def U64_MOD : Nat := 2 ^ 64

/-- 2^128, the modulus of Rust `u128` arithmetic. -/
def U128_MOD : Nat := 2 ^ 128

/-- Wrapping reduction to `u64` range (used for `u64` ops and `as u64` casts). -/
def wrap64 (n : Nat) : Nat := n % U64_MOD

/-- Wrapping reduction to `u128` range. -/
def wrap128 (n : Nat) : Nat := n % U128_MOD

-- Constants (src/lib.rs lines 19-27).

def BASIS_POINTS : Nat := 10000

def LP_FEE_BPS : Nat := 30

def MIN_LIQUIDITY : Nat := 1000

def PRICE_DECIMALS : Nat := 1000000

def MAX_TRADE_SIZE_BPS : Nat := 1000

def RESOLUTION_DELAY : Int := 300

def MIN_SHARES_OUTPUT : Nat := 1000

-- Enums (src/lib.rs lines 997-1008).

/-- Market lifecycle status (`MarketStatus`, src/lib.rs lines 998-1002). -/
inductive MarketStatus where
  | Active
  | Resolved
  | Cancelled
deriving DecidableEq

/-- Trade side / resolved outcome (`Outcome`, src/lib.rs lines 1004-1008). -/
inductive Outcome where
  | Yes
  | No
deriving DecidableEq

/-- Program error codes (`MarketError`, src/lib.rs lines 1014-1056). -/
inductive MarketError where
  | InvalidExpiration
  | DescriptionTooLong
  | InsufficientLiquidity
  | MarketNotActive
  | InvalidAmount
  | SlippageExceeded
  | MarketNotExpired
  | ConfidenceTooHigh
  | MarketNotResolved
  | InvalidPosition
  | NoWinnings
  | InvalidOraclePrice
  | InsufficientShares
  | AlreadyClaimed
  | InsufficientVaultFunds
  | PoolNotInitialized
  | TradeExceedsMaxSize
  | Unauthorized
  | MarketCannotBeCancelled
  | OutputTooSmall
deriving DecidableEq

/-- A successful staleness-bounded Pyth oracle reading (price and confidence,
src/lib.rs lines 525-535). -/
structure PythPrice where
  price : Int
  conf : Nat
deriving DecidableEq

-- State accounts (src/lib.rs lines 906-991).

/-- The `Market` account (src/lib.rs lines 906-938). -/
structure Market where
  authority : Nat
  market_id : Nat
  strike_price : Int
  expiration : Int
  max_confidence : Nat
  status : MarketStatus
  outcome : Option Outcome
  resolution_price : Option Int
  resolution_timestamp : Option Int
  total_yes_shares : Nat
  total_no_shares : Nat
  description : String
deriving DecidableEq

/-- The `Pool` account (src/lib.rs lines 940-957). -/
structure Pool where
  yes_reserve : Nat
  no_reserve : Nat
  total_liquidity : Nat
  total_fees_collected : Nat
  lp_token_supply : Nat
deriving DecidableEq

/-- The `LPPosition` account (src/lib.rs lines 959-970). -/
structure LPPosition where
  user : Nat
  lp_tokens : Nat
deriving DecidableEq

/-- The `Position` account (src/lib.rs lines 972-991). -/
structure Position where
  user : Nat
  yes_shares : Nat
  no_shares : Nat
  yes_avg_price : Nat
  no_avg_price : Nat
  claimed : Bool
deriving DecidableEq

/-- The accounts one instruction of the program mutates: the market, its
pool, the calling user's trade position and LP position, and the lamport
balance of the vault PDA. -/
structure PMState where
  market : Market
  pool : Pool
  position : Position
  lpPosition : LPPosition
  vault : Nat
deriving DecidableEq

/-- `get_price_for_side` (src/lib.rs lines 703-716): marginal share price
from the post-trade reserves, scale `PRICE_DECIMALS`. -/
def get_price_for_side (pool : Pool) (side : Outcome) : Nat :=
  let total := wrap64 (pool.yes_reserve + pool.no_reserve)
  if total = 0 then PRICE_DECIMALS / 2
  else
    match side with
    | Outcome.Yes => wrap64 (pool.no_reserve * PRICE_DECIMALS / total)
    | Outcome.No => wrap64 (pool.yes_reserve * PRICE_DECIMALS / total)

-- buy_shares quote arithmetic (src/lib.rs lines 297-311).

/-- `fee = amount_in * LP_FEE_BPS / BASIS_POINTS` (src/lib.rs line 298). -/
def buyFee (amountIn : Nat) : Nat := wrap64 (amountIn * LP_FEE_BPS) / BASIS_POINTS

/-- The input-side reserve of a buy (`reserve_in`, src/lib.rs lines 303-306):
buying YES pays into the NO reserve. -/
def buyReserveIn (pool : Pool) (side : Outcome) : Nat :=
  match side with
  | Outcome.Yes => pool.no_reserve
  | Outcome.No => pool.yes_reserve

/-- The output-side reserve of a buy (`reserve_out`, src/lib.rs lines 303-306). -/
def buyReserveOut (pool : Pool) (side : Outcome) : Nat :=
  match side with
  | Outcome.Yes => pool.yes_reserve
  | Outcome.No => pool.no_reserve

/-- `new_reserve_in = reserve_in + amount_after_fee` (src/lib.rs line 309). -/
def buyNewReserveIn (pool : Pool) (side : Outcome) (amountIn : Nat) : Nat :=
  wrap64 (buyReserveIn pool side + (amountIn - buyFee amountIn))

/-- `new_reserve_out = (k / new_reserve_in) as u64` with
`k = reserve_in * reserve_out` as `u128` (src/lib.rs lines 308-310). -/
def buyNewReserveOut (pool : Pool) (side : Outcome) (amountIn : Nat) : Nat :=
  wrap64 (buyReserveIn pool side * buyReserveOut pool side / buyNewReserveIn pool side amountIn)

/-- `shares_out = reserve_out.saturating_sub(new_reserve_out)` (src/lib.rs line 311). -/
def buySharesOut (pool : Pool) (side : Outcome) (amountIn : Nat) : Nat :=
  buyReserveOut pool side - buyNewReserveOut pool side amountIn

/-- The state mutations of a successful `buy_shares` (src/lib.rs lines
316-381): vault credited with the full `amount_in`, fee tracked, reserves
moved to the post-trade values, market share totals incremented, and the
position created (if fresh) and updated with a volume-weighted average entry
price computed from the already-updated pool. -/
def buyApply (s : PMState) (caller : Nat) (side : Outcome) (amountIn : Nat) : PMState :=
  let sharesOut := buySharesOut s.pool side amountIn
  let pool' : Pool :=
    match side with
    | Outcome.Yes =>
      { s.pool with
        total_fees_collected := wrap64 (s.pool.total_fees_collected + buyFee amountIn),
        no_reserve := buyNewReserveIn s.pool Outcome.Yes amountIn,
        yes_reserve := buyNewReserveOut s.pool Outcome.Yes amountIn }
    | Outcome.No =>
      { s.pool with
        total_fees_collected := wrap64 (s.pool.total_fees_collected + buyFee amountIn),
        yes_reserve := buyNewReserveIn s.pool Outcome.No amountIn,
        no_reserve := buyNewReserveOut s.pool Outcome.No amountIn }
  let market' : Market :=
    match side with
    | Outcome.Yes =>
      { s.market with total_yes_shares := wrap64 (s.market.total_yes_shares + sharesOut) }
    | Outcome.No =>
      { s.market with total_no_shares := wrap64 (s.market.total_no_shares + sharesOut) }
  let pos0 : Position :=
    if s.position.user = 0 then { s.position with user := caller } else s.position
  let currentPrice := get_price_for_side pool' side
  let position' : Position :=
    match side with
    | Outcome.Yes =>
      let newShares := wrap64 (pos0.yes_shares + sharesOut)
      { pos0 with
        yes_avg_price :=
          if 0 < newShares then
            wrap64 (wrap128 (pos0.yes_avg_price * pos0.yes_shares
              + currentPrice * sharesOut) / newShares)
          else pos0.yes_avg_price,
        yes_shares := newShares }
    | Outcome.No =>
      let newShares := wrap64 (pos0.no_shares + sharesOut)
      { pos0 with
        no_avg_price :=
          if 0 < newShares then
            wrap64 (wrap128 (pos0.no_avg_price * pos0.no_shares
              + currentPrice * sharesOut) / newShares)
          else pos0.no_avg_price,
        no_shares := newShares }
  { market := market', pool := pool', position := position',
    lpPosition := s.lpPosition, vault := s.vault + amountIn }

/-- `buy_shares` (src/lib.rs lines 273-390): the `require!` checks in source
order, then the state mutations of `buyApply`. -/
def buyShares (s : PMState) (caller : Nat) (side : Outcome)
    (amountIn minSharesOut : Nat) : PMState × Option MarketError :=
  if s.market.status ≠ MarketStatus.Active then (s, some MarketError.MarketNotActive)
  else if amountIn = 0 then (s, some MarketError.InvalidAmount)
  else if wrap64 (s.pool.total_liquidity * MAX_TRADE_SIZE_BPS) / BASIS_POINTS < amountIn then
    (s, some MarketError.TradeExceedsMaxSize)
  else if ¬(0 < s.pool.yes_reserve ∧ 0 < s.pool.no_reserve) then
    (s, some MarketError.PoolNotInitialized)
  else if buySharesOut s.pool side amountIn < minSharesOut then
    (s, some MarketError.SlippageExceeded)
  else if buySharesOut s.pool side amountIn < MIN_SHARES_OUTPUT then
    (s, some MarketError.OutputTooSmall)
  else (buyApply s caller side amountIn, none)

-- sell_shares quote arithmetic (src/lib.rs lines 425-437).

/-- The input-side reserve of a sell (`reserve_in`, src/lib.rs lines 426-429):
selling YES pays shares into the YES reserve. -/
def sellReserveIn (pool : Pool) (side : Outcome) : Nat :=
  match side with
  | Outcome.Yes => pool.yes_reserve
  | Outcome.No => pool.no_reserve

/-- The output-side reserve of a sell (`reserve_out`, src/lib.rs lines 426-429). -/
def sellReserveOut (pool : Pool) (side : Outcome) : Nat :=
  match side with
  | Outcome.Yes => pool.no_reserve
  | Outcome.No => pool.yes_reserve

/-- `new_reserve_in = reserve_in + shares_in` (src/lib.rs line 432). -/
def sellNewReserveIn (pool : Pool) (side : Outcome) (sharesIn : Nat) : Nat :=
  wrap64 (sellReserveIn pool side + sharesIn)

/-- `new_reserve_out = (k / new_reserve_in) as u64` with
`k = reserve_in * reserve_out` as `u128` (src/lib.rs lines 431-433). -/
def sellNewReserveOut (pool : Pool) (side : Outcome) (sharesIn : Nat) : Nat :=
  wrap64 (sellReserveIn pool side * sellReserveOut pool side / sellNewReserveIn pool side sharesIn)

/-- `amount_out_before_fee = reserve_out.saturating_sub(new_reserve_out)`
(src/lib.rs line 434). -/
def sellAmountBeforeFee (pool : Pool) (side : Outcome) (sharesIn : Nat) : Nat :=
  sellReserveOut pool side - sellNewReserveOut pool side sharesIn

/-- `fee = amount_out_before_fee * LP_FEE_BPS / BASIS_POINTS` (src/lib.rs line 436). -/
def sellFee (pool : Pool) (side : Outcome) (sharesIn : Nat) : Nat :=
  wrap64 (sellAmountBeforeFee pool side sharesIn * LP_FEE_BPS) / BASIS_POINTS

/-- `amount_out = amount_out_before_fee - fee` (src/lib.rs line 437). -/
def sellAmountOut (pool : Pool) (side : Outcome) (sharesIn : Nat) : Nat :=
  sellAmountBeforeFee pool side sharesIn - sellFee pool side sharesIn

/-- The state mutations of a successful `sell_shares` (src/lib.rs lines
449-496): vault debited by `amount_out`, reserves moved to the post-trade
values, fee tracked, market share totals and the position's share balance
decremented (saturating). -/
def sellApply (s : PMState) (side : Outcome) (sharesIn : Nat) : PMState :=
  let pool' : Pool :=
    match side with
    | Outcome.Yes =>
      { s.pool with
        yes_reserve := sellNewReserveIn s.pool Outcome.Yes sharesIn,
        no_reserve := sellNewReserveOut s.pool Outcome.Yes sharesIn,
        total_fees_collected :=
          wrap64 (s.pool.total_fees_collected + sellFee s.pool Outcome.Yes sharesIn) }
    | Outcome.No =>
      { s.pool with
        no_reserve := sellNewReserveIn s.pool Outcome.No sharesIn,
        yes_reserve := sellNewReserveOut s.pool Outcome.No sharesIn,
        total_fees_collected :=
          wrap64 (s.pool.total_fees_collected + sellFee s.pool Outcome.No sharesIn) }
  let market' : Market :=
    match side with
    | Outcome.Yes =>
      { s.market with total_yes_shares := s.market.total_yes_shares - sharesIn }
    | Outcome.No =>
      { s.market with total_no_shares := s.market.total_no_shares - sharesIn }
  let position' : Position :=
    match side with
    | Outcome.Yes => { s.position with yes_shares := s.position.yes_shares - sharesIn }
    | Outcome.No => { s.position with no_shares := s.position.no_shares - sharesIn }
  { market := market', pool := pool', position := position',
    lpPosition := s.lpPosition, vault := s.vault - sellAmountOut s.pool side sharesIn }

/-- `sell_shares` (src/lib.rs lines 393-505): the `require!` checks in source
order (status, non-zero amount, share balance, pool initialized, slippage,
dust, vault balance), then the state mutations of `sellApply`.  There is no
maximum-trade-size check on the sell path. -/
def sellShares (s : PMState) (side : Outcome)
    (sharesIn minAmountOut : Nat) : PMState × Option MarketError :=
  if s.market.status ≠ MarketStatus.Active then (s, some MarketError.MarketNotActive)
  else if sharesIn = 0 then (s, some MarketError.InvalidAmount)
  else if (match side with
           | Outcome.Yes => s.position.yes_shares
           | Outcome.No => s.position.no_shares) < sharesIn then
    (s, some MarketError.InsufficientShares)
  else if ¬(0 < s.pool.yes_reserve ∧ 0 < s.pool.no_reserve) then
    (s, some MarketError.PoolNotInitialized)
  else if sellAmountOut s.pool side sharesIn < minAmountOut then
    (s, some MarketError.SlippageExceeded)
  else if sellAmountOut s.pool side sharesIn < MIN_SHARES_OUTPUT then
    (s, some MarketError.OutputTooSmall)
  else if s.vault < sellAmountOut s.pool side sharesIn then
    (s, some MarketError.InsufficientVaultFunds)
  else (sellApply s side sharesIn, none)

/-- `lp_tokens_to_mint` of `add_liquidity` (src/lib.rs lines 157-161). -/
def lpTokensToMint (pool : Pool) (amount : Nat) : Nat :=
  if pool.total_liquidity = 0 then amount
  else wrap64 (amount * pool.lp_token_supply / pool.total_liquidity)

/-- `add_liquidity` (src/lib.rs lines 139-200): status and amount checks,
LP-token mint amount with its slippage check, vault credit, 50/50 reserve
split (odd remainder to the NO reserve), and the caller's LP position update
(initialized on first use, `Pubkey::default()` test). -/
def addLiquidity (s : PMState) (caller : Nat)
    (amount minLpTokens : Nat) : PMState × Option MarketError :=
  if s.market.status ≠ MarketStatus.Active then (s, some MarketError.MarketNotActive)
  else if amount = 0 then (s, some MarketError.InvalidAmount)
  else if lpTokensToMint s.pool amount < minLpTokens then
    (s, some MarketError.SlippageExceeded)
  else
    let minted := lpTokensToMint s.pool amount
    let halfAmount := amount / 2
    let lp0 : LPPosition :=
      { s.lpPosition with lp_tokens := wrap64 (s.lpPosition.lp_tokens + minted) }
    let lp1 : LPPosition := if lp0.user = 0 then { lp0 with user := caller } else lp0
    ({ market := s.market,
       pool := { s.pool with
         yes_reserve := wrap64 (s.pool.yes_reserve + halfAmount),
         no_reserve := wrap64 (s.pool.no_reserve + (amount - halfAmount)),
         total_liquidity := wrap64 (s.pool.total_liquidity + amount),
         lp_token_supply := wrap64 (s.pool.lp_token_supply + minted) },
       position := s.position,
       lpPosition := lp1,
       vault := s.vault + amount }, none)

/-- `amount_out` of `remove_liquidity` (src/lib.rs lines 224-225). -/
def removeAmountOut (pool : Pool) (lpTokens : Nat) : Nat :=
  wrap64 (lpTokens * pool.total_liquidity / pool.lp_token_supply)

/-- `remove_liquidity` (src/lib.rs lines 203-269): amount, balance, supply,
slippage and vault checks, then vault debit, 50/50 saturating reserve
decrement, liquidity and supply decrement, and the caller's LP balance
decrement. -/
def removeLiquidity (s : PMState)
    (lpTokens minAmountOut : Nat) : PMState × Option MarketError :=
  if lpTokens = 0 then (s, some MarketError.InvalidAmount)
  else if s.lpPosition.lp_tokens < lpTokens then (s, some MarketError.InsufficientShares)
  else if s.pool.lp_token_supply = 0 then (s, some MarketError.InsufficientLiquidity)
  else if removeAmountOut s.pool lpTokens < minAmountOut then
    (s, some MarketError.SlippageExceeded)
  else if s.vault < removeAmountOut s.pool lpTokens then
    (s, some MarketError.InsufficientVaultFunds)
  else
    let amountOut := removeAmountOut s.pool lpTokens
    let halfAmount := amountOut / 2
    ({ market := s.market,
       pool := { s.pool with
         yes_reserve := s.pool.yes_reserve - halfAmount,
         no_reserve := s.pool.no_reserve - (amountOut - halfAmount),
         total_liquidity := s.pool.total_liquidity - amountOut,
         lp_token_supply := s.pool.lp_token_supply - lpTokens },
       position := s.position,
       lpPosition := { s.lpPosition with lp_tokens := s.lpPosition.lp_tokens - lpTokens },
       vault := s.vault - amountOut }, none)

/-- The tail of `resolve_market` once an oracle reading is in hand
(src/lib.rs lines 532-550): confidence check, outcome from price vs strike,
and the atomic write of status, outcome, resolution price and timestamp. -/
def resolveWithPrice (s : PMState) (now : Int) (p : PythPrice) : PMState × Option MarketError :=
  if s.market.max_confidence < p.conf then (s, some MarketError.ConfidenceTooHigh)
  else
    ({ s with market := { s.market with
         status := MarketStatus.Resolved,
         outcome := some (if s.market.strike_price ≤ p.price then Outcome.Yes else Outcome.No),
         resolution_price := some p.price,
         resolution_timestamp := some now } }, none)

/-- `resolve_market` (src/lib.rs lines 508-559): only from `Active`, only at
or after `expiration + RESOLUTION_DELAY`, with a fresh oracle reading whose
confidence is within `max_confidence`; outcome is YES exactly when the oracle
price is at least the strike, and status, outcome, resolution price and
resolution timestamp are all written together. -/
def resolveMarket (s : PMState) (now : Int)
    (priceRead : Option PythPrice) : PMState × Option MarketError :=
  if s.market.status ≠ MarketStatus.Active then (s, some MarketError.MarketNotActive)
  else if now < s.market.expiration + RESOLUTION_DELAY then
    (s, some MarketError.MarketNotExpired)
  else
    match priceRead with
    | none => (s, some MarketError.InvalidOraclePrice)
    | some p => resolveWithPrice s now p

/-- The winning-side share balance of a position for a resolved outcome
(src/lib.rs lines 579-582); `0` when the market has no outcome. -/
def winningSharesOf (m : Market) (pos : Position) : Nat :=
  match m.outcome with
  | some Outcome.Yes => pos.yes_shares
  | some Outcome.No => pos.no_shares
  | none => 0

/-- The tail of `claim_winnings` once the resolved outcome is in hand
(src/lib.rs lines 578-615): winning-side balance, `NoWinnings` and vault
checks, then the 1:1 payout and the one-way `claimed` flag. -/
def claimWithOutcome (s : PMState) (outcome : Outcome) : PMState × Option MarketError :=
  let winningShares :=
    match outcome with
    | Outcome.Yes => s.position.yes_shares
    | Outcome.No => s.position.no_shares
  if winningShares = 0 then (s, some MarketError.NoWinnings)
  else if s.vault < winningShares then (s, some MarketError.InsufficientVaultFunds)
  else
    ({ s with
       position := { s.position with claimed := true },
       vault := s.vault - winningShares }, none)

/-- `claim_winnings` (src/lib.rs lines 562-623): requires a resolved market,
the caller owning the position, and no prior claim; pays out exactly the
winning-side share balance 1:1 from the vault (which must cover it) and marks
the position claimed. -/
def claimWinnings (s : PMState) (caller : Nat) : PMState × Option MarketError :=
  if s.market.status ≠ MarketStatus.Resolved then (s, some MarketError.MarketNotResolved)
  else if s.position.user ≠ caller then (s, some MarketError.InvalidPosition)
  else if s.position.claimed then (s, some MarketError.AlreadyClaimed)
  else
    match s.market.outcome with
    | none => (s, some MarketError.MarketNotResolved)
    | some outcome => claimWithOutcome s outcome

/-- `cancel_market` (src/lib.rs lines 626-640): authority only, only from
`Active`; sets the status to `Cancelled` and touches nothing else. -/
def cancelMarket (s : PMState) (caller : Nat) : PMState × Option MarketError :=
  if s.market.status ≠ MarketStatus.Active then (s, some MarketError.MarketNotActive)
  else if s.market.authority ≠ caller then (s, some MarketError.Unauthorized)
  else ({ s with market := { s.market with status := MarketStatus.Cancelled } }, none)

/-- `create_market` (src/lib.rs lines 46-94): future expiration, bounded
description, and an oracle feed that is readable and publishing recent data
(the two Pyth reads are abstracted into the single flag `oracleFresh`);
produces a fresh `Active` market with no resolution data. -/
def createMarket (now : Int) (oracleFresh : Bool) (authority marketId : Nat)
    (strikePrice : Int) (expiration : Int) (maxConfidence : Nat)
    (description : String) : Option Market :=
  if expiration ≤ now then none
  else if 128 < description.length then none
  else if ¬oracleFresh then none
  else some
    { authority := authority,
      market_id := marketId,
      strike_price := strikePrice,
      expiration := expiration,
      max_confidence := maxConfidence,
      status := MarketStatus.Active,
      outcome := none,
      resolution_price := none,
      resolution_timestamp := none,
      total_yes_shares := 0,
      total_no_shares := 0,
      description := description }

/-- `initialize_pool` (src/lib.rs lines 97-136): requires at least
`MIN_LIQUIDITY`, credits the vault with twice the amount and creates the pool
(equal virtual reserves) and the provider's LP position. -/
def initPool (initialLiquidity : Nat) (authority : Nat) : Option (Pool × LPPosition) :=
  if initialLiquidity < MIN_LIQUIDITY then none
  else some
    ({ yes_reserve := initialLiquidity,
       no_reserve := initialLiquidity,
       total_liquidity := wrap64 (initialLiquidity * 2),
       total_fees_collected := 0,
       lp_token_supply := wrap64 (initialLiquidity * 2) },
     { user := authority, lp_tokens := wrap64 (initialLiquidity * 2) })

/-- Claim C8's invariant on a market: the resolution data (outcome,
resolution price, resolution timestamp) is all present when the status is
`Resolved` and all absent otherwise. -/
def MarketInv (m : Market) : Prop :=
  (m.status = MarketStatus.Resolved →
    m.outcome.isSome ∧ m.resolution_price.isSome ∧ m.resolution_timestamp.isSome)
  ∧ (m.status ≠ MarketStatus.Resolved →
    m.outcome = none ∧ m.resolution_price = none ∧ m.resolution_timestamp = none)

/-- One successful instruction of the program, viewed as a transition on the
shared state.  The per-user accounts (`position`, `lpPosition`) may be
replaced by arbitrary values before a step, which subsumes sequences in which
different users call the program; failing calls are omitted because they
leave the state unchanged (claim C4). -/
inductive Step : PMState → PMState → Prop where
  | initPoolStep (s : PMState) (init auth : Nat) (p : Pool) (lp : LPPosition) :
      initPool init auth = some (p, lp) →
      Step s { s with pool := p, lpPosition := lp, vault := s.vault + wrap64 (init * 2) }
  | addLiq (s s' : PMState) (lp : LPPosition) (c amount minLp : Nat) :
      addLiquidity { s with lpPosition := lp } c amount minLp = (s', none) → Step s s'
  | removeLiq (s s' : PMState) (lp : LPPosition) (lpT minOut : Nat) :
      removeLiquidity { s with lpPosition := lp } lpT minOut = (s', none) → Step s s'
  | buy (s s' : PMState) (pos : Position) (c : Nat) (side : Outcome) (a mo : Nat) :
      buyShares { s with position := pos } c side a mo = (s', none) → Step s s'
  | sell (s s' : PMState) (pos : Position) (side : Outcome) (n mo : Nat) :
      sellShares { s with position := pos } side n mo = (s', none) → Step s s'
  | resolve (s s' : PMState) (now : Int) (priceRead : Option PythPrice) :
      resolveMarket s now priceRead = (s', none) → Step s s'
  | claim (s s' : PMState) (pos : Position) (c : Nat) :
      claimWinnings { s with position := pos } c = (s', none) → Step s s'
  | cancel (s s' : PMState) (c : Nat) :
      cancelMarket s c = (s', none) → Step s s'

/-- The states reachable from `create_market` through any sequence of
successful program instructions. -/
inductive Reach : PMState → Prop where
  | create (now : Int) (fresh : Bool) (auth mid : Nat) (strike expiration : Int)
      (conf : Nat) (descr : String) (m : Market) (p : Pool) (pos : Position)
      (lp : LPPosition) (v : Nat) :
      createMarket now fresh auth mid strike expiration conf descr = some m →
      Reach { market := m, pool := p, position := pos, lpPosition := lp, vault := v }
  | step (s s' : PMState) : Reach s → Step s s' → Reach s'

-- Concrete states used by the witnesses and counterexamples.

/-- An active market with the spec's resolution-example parameters
(strike 50,000,000, max confidence 200,000). -/
def mkt0 : Market :=
  { authority := 7, market_id := 1, strike_price := 50000000, expiration := 100,
    max_confidence := 200000, status := MarketStatus.Active, outcome := none,
    resolution_price := none, resolution_timestamp := none,
    total_yes_shares := 0, total_no_shares := 0, description := "" }

/-- A fresh (all-default) trade position. -/
def pos0 : Position :=
  { user := 0, yes_shares := 0, no_shares := 0, yes_avg_price := 0,
    no_avg_price := 0, claimed := false }

/-- The spec's round-trip example pool: 10,000 liquidity a side,
20,000 LP tokens. -/
def pool10k : Pool :=
  { yes_reserve := 10000, no_reserve := 10000, total_liquidity := 20000,
    total_fees_collected := 0, lp_token_supply := 20000 }

/-- The round-trip example state. -/
def st10k : PMState :=
  { market := mkt0, pool := pool10k, position := pos0,
    lpPosition := { user := 7, lp_tokens := 20000 }, vault := 20000 }

/-- A deeper pool on which trades clear the dust floor. -/
def pool100k : Pool :=
  { yes_reserve := 100000, no_reserve := 100000, total_liquidity := 200000,
    total_fees_collected := 0, lp_token_supply := 200000 }

/-- A trader holding 50,000 YES shares. -/
def posTrader : Position :=
  { user := 1, yes_shares := 50000, no_shares := 0, yes_avg_price := 500000,
    no_avg_price := 0, claimed := false }

/-- A funded state over the deeper pool. -/
def st100k : PMState :=
  { market := mkt0, pool := pool100k, position := posTrader,
    lpPosition := { user := 7, lp_tokens := 200000 }, vault := 1000000000 }

/-- The round-trip example state with a cancelled market. -/
def stCancelled : PMState :=
  { st10k with market := { mkt0 with status := MarketStatus.Cancelled } }

/-- The spec's resolution-example oracle reading: price 51,000,000,
confidence 100,000. -/
def p0 : PythPrice := { price := 51000000, conf := 100000 }

/-- The state after resolving `st10k` at time 400 with reading `p0`. -/
def stResolved : PMState := (resolveMarket st10k 400 (some p0)).1

/-- The resolved state with the YES-holding trader's position and a funded
vault, ready for a claim. -/
def stClaimReady : PMState :=
  { stResolved with position := posTrader, vault := 1000000 }

-- Concrete evaluations of the embedding on the spec's worked examples.

example : buyFee 1000 = 3 := rfl

example : buyNewReserveIn pool10k Outcome.Yes 1000 = 10997 := rfl

example : buyNewReserveOut pool10k Outcome.Yes 1000 = 9093 := rfl

example : buySharesOut pool10k Outcome.Yes 1000 = 907 := rfl

example : buyShares st10k 1 Outcome.Yes 1000 0 = (st10k, some MarketError.OutputTooSmall) := rfl

example : buyShares st10k 1 Outcome.Yes 1000 5000 = (st10k, some MarketError.SlippageExceeded) := rfl

example : (buyShares st100k 1 Outcome.Yes 10000 0).2 = none := rfl

example : (buyShares st100k 1 Outcome.Yes 10000 0).1.pool.yes_reserve = 90933 := rfl

example : (buyShares st100k 1 Outcome.Yes 10000 0).1.pool.no_reserve = 109970 := rfl

example : (sellShares st100k Outcome.Yes 10000 0).2 = none := rfl

example : (sellShares st100k Outcome.Yes 10000 0).1.vault = 1000000000 - 9064 := rfl

example : (resolveMarket st10k 400 (some p0)).2 = none := rfl

example : stResolved.market.outcome = some Outcome.Yes := rfl

example : (claimWinnings stClaimReady 1).2 = none := rfl

example : (claimWinnings stClaimReady 1).1.vault = 950000 := rfl

example : buyShares stCancelled 1 Outcome.Yes 5 0 = (stCancelled, some MarketError.MarketNotActive) := rfl

example : buyShares st100k 1 Outcome.Yes 30000 0 = (st100k, some MarketError.TradeExceedsMaxSize) := rfl

-- Error paths leave the state untouched (one lemma per handler).

theorem buyShares_error_eq {s s' : PMState} {c : Nat} {side : Outcome} {a mo : Nat}
    {e : MarketError} (h : buyShares s c side a mo = (s', some e)) : s' = s := by
  unfold buyShares at h
  split_ifs at h
  all_goals first
    | exact (congrArg Prod.fst h).symm
    | exact Option.noConfusion (congrArg Prod.snd h)

theorem sellShares_error_eq {s s' : PMState} {side : Outcome} {n mo : Nat}
    {e : MarketError} (h : sellShares s side n mo = (s', some e)) : s' = s := by
  unfold sellShares at h
  split_ifs at h
  all_goals first
    | exact (congrArg Prod.fst h).symm
    | exact Option.noConfusion (congrArg Prod.snd h)

theorem addLiquidity_error_eq {s s' : PMState} {c amount minLp : Nat}
    {e : MarketError} (h : addLiquidity s c amount minLp = (s', some e)) : s' = s := by
  unfold addLiquidity at h
  split_ifs at h
  all_goals first
    | exact (congrArg Prod.fst h).symm
    | exact Option.noConfusion (congrArg Prod.snd h)

theorem removeLiquidity_error_eq {s s' : PMState} {lpT minOut : Nat}
    {e : MarketError} (h : removeLiquidity s lpT minOut = (s', some e)) : s' = s := by
  unfold removeLiquidity at h
  split_ifs at h
  all_goals first
    | exact (congrArg Prod.fst h).symm
    | exact Option.noConfusion (congrArg Prod.snd h)

theorem resolveWithPrice_error_eq {s s' : PMState} {now : Int} {p : PythPrice}
    {e : MarketError} (h : resolveWithPrice s now p = (s', some e)) : s' = s := by
  unfold resolveWithPrice at h
  split_ifs at h
  all_goals first
    | exact (congrArg Prod.fst h).symm
    | exact Option.noConfusion (congrArg Prod.snd h)

theorem resolveMarket_error_eq {s s' : PMState} {now : Int} {read : Option PythPrice}
    {e : MarketError} (h : resolveMarket s now read = (s', some e)) : s' = s := by
  unfold resolveMarket at h
  split_ifs at h
  all_goals try exact (congrArg Prod.fst h).symm
  cases read with
  | none => exact (congrArg Prod.fst h).symm
  | some p => exact resolveWithPrice_error_eq h

theorem claimWithOutcome_error_eq {s s' : PMState} {o : Outcome}
    {e : MarketError} (h : claimWithOutcome s o = (s', some e)) : s' = s := by
  simp only [claimWithOutcome] at h
  split_ifs at h
  all_goals first
    | exact (congrArg Prod.fst h).symm
    | exact Option.noConfusion (congrArg Prod.snd h)

theorem claimWinnings_error_eq {s s' : PMState} {c : Nat}
    {e : MarketError} (h : claimWinnings s c = (s', some e)) : s' = s := by
  unfold claimWinnings at h
  split_ifs at h
  all_goals try exact (congrArg Prod.fst h).symm
  cases ho : s.market.outcome with
  | none => rw [ho] at h; exact (congrArg Prod.fst h).symm
  | some o => rw [ho] at h; exact claimWithOutcome_error_eq h

theorem cancelMarket_error_eq {s s' : PMState} {c : Nat}
    {e : MarketError} (h : cancelMarket s c = (s', some e)) : s' = s := by
  unfold cancelMarket at h
  split_ifs at h
  all_goals first
    | exact (congrArg Prod.fst h).symm
    | exact Option.noConfusion (congrArg Prod.snd h)

-- Success characterizations.

theorem buyShares_ok {s s' : PMState} {c : Nat} {side : Outcome} {a mo : Nat}
    (h : buyShares s c side a mo = (s', none)) :
    (0 < s.pool.yes_reserve ∧ 0 < s.pool.no_reserve) ∧ s' = buyApply s c side a := by
  unfold buyShares at h
  split_ifs at h with h1 h2 h3 h4 h5 h6
  all_goals try exact Option.noConfusion (congrArg Prod.snd h)
  exact ⟨h4, (congrArg Prod.fst h).symm⟩

theorem sellShares_ok {s s' : PMState} {side : Outcome} {n mo : Nat}
    (h : sellShares s side n mo = (s', none)) :
    (0 < s.pool.yes_reserve ∧ 0 < s.pool.no_reserve) ∧ s' = sellApply s side n := by
  unfold sellShares at h
  split_ifs at h with h1 h2 h3 h4 h5 h6 h7
  all_goals try exact Option.noConfusion (congrArg Prod.snd h)
  exact ⟨h4, (congrArg Prod.fst h).symm⟩

theorem cancelMarket_ok {s s' : PMState} {c : Nat}
    (h : cancelMarket s c = (s', none)) :
    s.market.status = MarketStatus.Active ∧
    s' = { s with market := { s.market with status := MarketStatus.Cancelled } } := by
  unfold cancelMarket at h
  split_ifs at h with h1 h2
  all_goals try exact Option.noConfusion (congrArg Prod.snd h)
  exact ⟨not_not.mp h1, (congrArg Prod.fst h).symm⟩

theorem resolveMarket_ok {s s' : PMState} {now : Int} {read : Option PythPrice}
    (h : resolveMarket s now read = (s', none)) :
    s.market.status = MarketStatus.Active ∧ s.market.expiration + RESOLUTION_DELAY ≤ now ∧
    ∃ p, read = some p ∧ p.conf ≤ s.market.max_confidence ∧
      s' = { s with market := { s.market with
        status := MarketStatus.Resolved,
        outcome := some (if s.market.strike_price ≤ p.price then Outcome.Yes else Outcome.No),
        resolution_price := some p.price,
        resolution_timestamp := some now } } := by
  unfold resolveMarket at h
  split_ifs at h with h1 h2
  all_goals try exact Option.noConfusion (congrArg Prod.snd h)
  cases read with
  | none => exact Option.noConfusion (congrArg Prod.snd h)
  | some p =>
    have h' : resolveWithPrice s now p = (s', none) := h
    unfold resolveWithPrice at h'
    by_cases h3 : s.market.max_confidence < p.conf
    · rw [if_pos h3] at h'
      exact Option.noConfusion (congrArg Prod.snd h')
    · rw [if_neg h3] at h'
      exact ⟨not_not.mp h1, Int.not_lt.mp h2, p, rfl, Nat.le_of_not_lt h3,
        (congrArg Prod.fst h').symm⟩

theorem createMarket_ok {now : Int} {fresh : Bool} {auth mid : Nat}
    {strike expiration : Int} {conf : Nat} {descr : String} {m : Market}
    (h : createMarket now fresh auth mid strike expiration conf descr = some m) :
    m.status = MarketStatus.Active ∧ m.outcome = none ∧
    m.resolution_price = none ∧ m.resolution_timestamp = none := by
  unfold createMarket at h
  split_ifs at h
  obtain rfl := Option.some.inj h
  exact ⟨rfl, rfl, rfl, rfl⟩

theorem claimWinnings_ok {s s' : PMState} {c : Nat}
    (h : claimWinnings s c = (s', none)) :
    s.market.status = MarketStatus.Resolved ∧ s.position.user = c ∧
    s.position.claimed = false ∧
    0 < winningSharesOf s.market s.position ∧
    winningSharesOf s.market s.position ≤ s.vault ∧
    s' = { s with
      position := { s.position with claimed := true },
      vault := s.vault - winningSharesOf s.market s.position } := by
  unfold claimWinnings at h
  split_ifs at h with h1 h2 h3
  all_goals try exact Option.noConfusion (congrArg Prod.snd h)
  cases ho : s.market.outcome with
  | none => rw [ho] at h; exact Option.noConfusion (congrArg Prod.snd h)
  | some o =>
    rw [ho] at h
    have h' : claimWithOutcome s o = (s', none) := h
    cases o with
    | Yes =>
      have hw : winningSharesOf s.market s.position = s.position.yes_shares := by
        simp [winningSharesOf, ho]
      simp only [claimWithOutcome] at h'
      split_ifs at h' with h4 h5
      · exact Option.noConfusion (congrArg Prod.snd h')
      · exact Option.noConfusion (congrArg Prod.snd h')
      · refine ⟨not_not.mp h1, not_not.mp h2, by simpa using h3, ?_, ?_, ?_⟩
        · rw [hw]; exact Nat.pos_of_ne_zero h4
        · rw [hw]; exact Nat.le_of_not_lt h5
        · rw [hw]; exact (congrArg Prod.fst h').symm
    | No =>
      have hw : winningSharesOf s.market s.position = s.position.no_shares := by
        simp [winningSharesOf, ho]
      simp only [claimWithOutcome] at h'
      split_ifs at h' with h4 h5
      · exact Option.noConfusion (congrArg Prod.snd h')
      · exact Option.noConfusion (congrArg Prod.snd h')
      · refine ⟨not_not.mp h1, not_not.mp h2, by simpa using h3, ?_, ?_, ?_⟩
        · rw [hw]; exact Nat.pos_of_ne_zero h4
        · rw [hw]; exact Nat.le_of_not_lt h5
        · rw [hw]; exact (congrArg Prod.fst h').symm

-- Frame lemmas: which fields each handler leaves untouched.

theorem buyApply_market_frame (s : PMState) (c : Nat) (side : Outcome) (a : Nat) :
    (buyApply s c side a).market.status = s.market.status ∧
    (buyApply s c side a).market.outcome = s.market.outcome ∧
    (buyApply s c side a).market.resolution_price = s.market.resolution_price ∧
    (buyApply s c side a).market.resolution_timestamp = s.market.resolution_timestamp := by
  cases side <;> exact ⟨rfl, rfl, rfl, rfl⟩

theorem sellApply_market_frame (s : PMState) (side : Outcome) (n : Nat) :
    (sellApply s side n).market.status = s.market.status ∧
    (sellApply s side n).market.outcome = s.market.outcome ∧
    (sellApply s side n).market.resolution_price = s.market.resolution_price ∧
    (sellApply s side n).market.resolution_timestamp = s.market.resolution_timestamp := by
  cases side <;> exact ⟨rfl, rfl, rfl, rfl⟩

theorem buyApply_lp_frame (s : PMState) (c : Nat) (side : Outcome) (a : Nat) :
    (buyApply s c side a).pool.total_liquidity = s.pool.total_liquidity ∧
    (buyApply s c side a).pool.lp_token_supply = s.pool.lp_token_supply ∧
    (buyApply s c side a).lpPosition = s.lpPosition := by
  cases side <;> exact ⟨rfl, rfl, rfl⟩

theorem sellApply_lp_frame (s : PMState) (side : Outcome) (n : Nat) :
    (sellApply s side n).pool.total_liquidity = s.pool.total_liquidity ∧
    (sellApply s side n).pool.lp_token_supply = s.pool.lp_token_supply ∧
    (sellApply s side n).lpPosition = s.lpPosition := by
  cases side <;> exact ⟨rfl, rfl, rfl⟩

theorem addLiquidity_market_eq {s s' : PMState} {c amount minLp : Nat} {e : Option MarketError}
    (h : addLiquidity s c amount minLp = (s', e)) : s'.market = s.market := by
  unfold addLiquidity at h
  split_ifs at h
  all_goals
    have hs := (congrArg Prod.fst h).symm
    have hm := congrArg PMState.market hs
    exact hm

theorem removeLiquidity_market_eq {s s' : PMState} {lpT minOut : Nat} {e : Option MarketError}
    (h : removeLiquidity s lpT minOut = (s', e)) : s'.market = s.market := by
  unfold removeLiquidity at h
  split_ifs at h
  all_goals
    have hs := (congrArg Prod.fst h).symm
    have hm := congrArg PMState.market hs
    exact hm

theorem claimWinnings_market_eq {s s' : PMState} {c : Nat} {e : Option MarketError}
    (h : claimWinnings s c = (s', e)) : s'.market = s.market := by
  cases e with
  | none =>
    obtain ⟨-, -, -, -, -, rfl⟩ := claimWinnings_ok h
    rfl
  | some err => rw [claimWinnings_error_eq h]

/-- Claim C4: for every operation (buy_shares, sell_shares, add_liquidity,
remove_liquidity, resolve_market, claim_winnings, cancel_market) and every
input, if the operation returns an error then the Market, Pool, Position and
LPPosition state (and the vault) are exactly as they were before the call:
every failing check is evaluated before any mutation. -/
theorem c4_no_partial_update :
    (∀ (s s' : PMState) (c : Nat) (side : Outcome) (a mo : Nat) (e : MarketError),
      buyShares s c side a mo = (s', some e) → s' = s) ∧
    (∀ (s s' : PMState) (side : Outcome) (n mo : Nat) (e : MarketError),
      sellShares s side n mo = (s', some e) → s' = s) ∧
    (∀ (s s' : PMState) (c amount minLp : Nat) (e : MarketError),
      addLiquidity s c amount minLp = (s', some e) → s' = s) ∧
    (∀ (s s' : PMState) (lpT minOut : Nat) (e : MarketError),
      removeLiquidity s lpT minOut = (s', some e) → s' = s) ∧
    (∀ (s s' : PMState) (now : Int) (read : Option PythPrice) (e : MarketError),
      resolveMarket s now read = (s', some e) → s' = s) ∧
    (∀ (s s' : PMState) (c : Nat) (e : MarketError),
      claimWinnings s c = (s', some e) → s' = s) ∧
    (∀ (s s' : PMState) (c : Nat) (e : MarketError),
      cancelMarket s c = (s', some e) → s' = s) :=
  ⟨fun _ _ _ _ _ _ _ h => buyShares_error_eq h,
   fun _ _ _ _ _ _ h => sellShares_error_eq h,
   fun _ _ _ _ _ _ h => addLiquidity_error_eq h,
   fun _ _ _ _ _ h => removeLiquidity_error_eq h,
   fun _ _ _ _ _ h => resolveMarket_error_eq h,
   fun _ _ _ _ h => claimWinnings_error_eq h,
   fun _ _ _ _ h => cancelMarket_error_eq h⟩

/-- Witness for C4: a concrete failing buy (market cancelled) returns the
input state unchanged. -/
theorem c4_witness :
    buyShares stCancelled 1 Outcome.Yes 5 0 = (stCancelled, some MarketError.MarketNotActive) ∧
    stCancelled = stCancelled :=
  ⟨rfl, c4_no_partial_update.1 stCancelled stCancelled 1 Outcome.Yes 5 0
    MarketError.MarketNotActive rfl⟩

/-- Claim C5: on a Resolved or Cancelled market, resolve_market fails with
MarketNotActive and leaves the market unchanged; in particular resolving
twice makes the second call fail with MarketNotActive, so Resolved and
Cancelled are terminal. -/
theorem c5_terminal_states :
    (∀ (s : PMState) (now : Int) (read : Option PythPrice),
      s.market.status = MarketStatus.Resolved ∨ s.market.status = MarketStatus.Cancelled →
      resolveMarket s now read = (s, some MarketError.MarketNotActive)) ∧
    (∀ (s s' : PMState) (now : Int) (read : Option PythPrice)
      (now' : Int) (read' : Option PythPrice),
      resolveMarket s now read = (s', none) →
      resolveMarket s' now' read' = (s', some MarketError.MarketNotActive)) := by
  have hne : ∀ (s : PMState) (now : Int) (read : Option PythPrice),
      s.market.status ≠ MarketStatus.Active →
      resolveMarket s now read = (s, some MarketError.MarketNotActive) := by
    intro s now read hs
    unfold resolveMarket
    rw [if_pos hs]
  constructor
  · intro s now read h
    apply hne
    rcases h with h | h <;> rw [h] <;> decide
  · intro s s' now read now' read' h
    obtain ⟨-, -, p, -, -, rfl⟩ := resolveMarket_ok h
    apply hne
    intro hcontra
    exact MarketStatus.noConfusion hcontra

/-- Witness for C5: resolving the concrete active market succeeds; a second
resolve on the result fails with MarketNotActive. -/
theorem c5_witness :
    resolveMarket st10k 400 (some p0) = (stResolved, none) ∧
    resolveMarket stResolved 500 (some p0) = (stResolved, some MarketError.MarketNotActive) :=
  ⟨rfl, c5_terminal_states.2 st10k stResolved 400 (some p0) 500 (some p0) rfl⟩

/-- Claim C6: every successful resolve_market resolves Yes exactly when the
oracle price is at least the strike, and writes status, outcome, resolution
price and resolution timestamp together in the same call. -/
theorem c6_resolution_outcome :
    ∀ (s s' : PMState) (now : Int) (p : PythPrice),
      resolveMarket s now (some p) = (s', none) →
      s'.market.status = MarketStatus.Resolved ∧
      s'.market.outcome =
        some (if s.market.strike_price ≤ p.price then Outcome.Yes else Outcome.No) ∧
      s'.market.resolution_price = some p.price ∧
      s'.market.resolution_timestamp = some now := by
  intro s s' now p h
  obtain ⟨-, -, q, hq, -, rfl⟩ := resolveMarket_ok h
  obtain rfl := Option.some.inj hq
  exact ⟨rfl, rfl, rfl, rfl⟩

/-- Witness for C6: the spec's resolution example; strike 50,000,000, oracle
price 51,000,000, confidence 100,000 within max 200,000, outcome Yes. -/
theorem c6_witness :
    resolveMarket st10k 400 (some p0) = (stResolved, none) ∧
    stResolved.market.status = MarketStatus.Resolved ∧
    stResolved.market.outcome = some Outcome.Yes ∧
    stResolved.market.resolution_price = some 51000000 ∧
    stResolved.market.resolution_timestamp = some 400 := by
  have h := c6_resolution_outcome st10k stResolved 400 p0 rfl
  exact ⟨rfl, h.1, h.2.1, h.2.2.1, h.2.2.2⟩

/-- Claim C7: a successful claim pays exactly the winning-side share balance
(1:1), sets claimed, and a repeat claim on the same position fails with
AlreadyClaimed; a claim on a zero winning-side balance fails with
NoWinnings. -/
theorem c7_claim_once :
    (∀ (s s' : PMState) (c : Nat),
      claimWinnings s c = (s', none) →
      s'.position.claimed = true ∧
      s'.vault + winningSharesOf s.market s.position = s.vault ∧
      0 < winningSharesOf s.market s.position ∧
      claimWinnings s' c = (s', some MarketError.AlreadyClaimed)) ∧
    (∀ (s : PMState) (c : Nat) (o : Outcome),
      s.market.status = MarketStatus.Resolved → s.position.user = c →
      s.position.claimed = false → s.market.outcome = some o →
      winningSharesOf s.market s.position = 0 →
      claimWinnings s c = (s, some MarketError.NoWinnings)) := by
  constructor
  · intro s s' c h
    obtain ⟨hst, huser, hcl, hpos, hle, rfl⟩ := claimWinnings_ok h
    refine ⟨rfl, Nat.sub_add_cancel hle, hpos, ?_⟩
    unfold claimWinnings
    rw [if_neg (not_not_intro hst), if_neg (not_not_intro huser), if_pos rfl]
  · intro s c o hst huser hcl ho hws
    unfold claimWinnings
    rw [if_neg (not_not_intro hst), if_neg (not_not_intro huser),
      if_neg (by simp [hcl]), ho]
    cases o with
    | Yes =>
      have hy : s.position.yes_shares = 0 := by simpa [winningSharesOf, ho] using hws
      simp only [claimWithOutcome]
      rw [if_pos hy]
    | No =>
      have hn : s.position.no_shares = 0 := by simpa [winningSharesOf, ho] using hws
      simp only [claimWithOutcome]
      rw [if_pos hn]

/-- Witness for C7: the concrete resolved market with a 50,000-YES position;
the claim pays 50,000 and the repeat fails with AlreadyClaimed. -/
theorem c7_witness :
    claimWinnings stClaimReady 1 = ((claimWinnings stClaimReady 1).1, none) ∧
    ((claimWinnings stClaimReady 1).1.position.claimed = true ∧
     (claimWinnings stClaimReady 1).1.vault
       + winningSharesOf stClaimReady.market stClaimReady.position = stClaimReady.vault ∧
     0 < winningSharesOf stClaimReady.market stClaimReady.position ∧
     claimWinnings (claimWinnings stClaimReady 1).1 1
       = ((claimWinnings stClaimReady 1).1, some MarketError.AlreadyClaimed)) :=
  ⟨rfl, c7_claim_once.1 stClaimReady (claimWinnings stClaimReady 1).1 1 rfl⟩

/-- Claim C9: buy_shares and sell_shares, successful or failing, leave
total_liquidity, lp_token_supply and the LP position untouched. -/
theorem c9_trades_frame :
    (∀ (s s' : PMState) (c : Nat) (side : Outcome) (a mo : Nat) (e : Option MarketError),
      buyShares s c side a mo = (s', e) →
      s'.pool.total_liquidity = s.pool.total_liquidity ∧
      s'.pool.lp_token_supply = s.pool.lp_token_supply ∧
      s'.lpPosition = s.lpPosition) ∧
    (∀ (s s' : PMState) (side : Outcome) (n mo : Nat) (e : Option MarketError),
      sellShares s side n mo = (s', e) →
      s'.pool.total_liquidity = s.pool.total_liquidity ∧
      s'.pool.lp_token_supply = s.pool.lp_token_supply ∧
      s'.lpPosition = s.lpPosition) := by
  constructor
  · intro s s' c side a mo e h
    cases e with
    | none =>
      obtain ⟨-, rfl⟩ := buyShares_ok h
      exact buyApply_lp_frame s c side a
    | some err =>
      rw [buyShares_error_eq h]
      exact ⟨rfl, rfl, rfl⟩
  · intro s s' side n mo e h
    cases e with
    | none =>
      obtain ⟨-, rfl⟩ := sellShares_ok h
      exact sellApply_lp_frame s side n
    | some err =>
      rw [sellShares_error_eq h]
      exact ⟨rfl, rfl, rfl⟩

/-- Witness for C9: a concrete successful buy preserves total_liquidity,
lp_token_supply and the LP position. -/
theorem c9_witness :
    buyShares st100k 1 Outcome.Yes 10000 0 = ((buyShares st100k 1 Outcome.Yes 10000 0).1, none) ∧
    ((buyShares st100k 1 Outcome.Yes 10000 0).1.pool.total_liquidity
       = st100k.pool.total_liquidity ∧
     (buyShares st100k 1 Outcome.Yes 10000 0).1.pool.lp_token_supply
       = st100k.pool.lp_token_supply ∧
     (buyShares st100k 1 Outcome.Yes 10000 0).1.lpPosition = st100k.lpPosition) :=
  ⟨rfl, c9_trades_frame.1 st100k (buyShares st100k 1 Outcome.Yes 10000 0).1
    1 Outcome.Yes 10000 0 none rfl⟩

/-- Claim C10: sell_shares never fails with TradeExceedsMaxSize, for any
shares_in; buy_shares, in contrast, rejects any amount_in above 10 percent
of total_liquidity with TradeExceedsMaxSize. -/
theorem c10_sell_no_max_size :
    (∀ (s : PMState) (side : Outcome) (n mo : Nat),
      (sellShares s side n mo).2 ≠ some MarketError.TradeExceedsMaxSize) ∧
    (∀ (s : PMState) (c : Nat) (side : Outcome) (a mo : Nat),
      s.market.status = MarketStatus.Active → 0 < a →
      wrap64 (s.pool.total_liquidity * MAX_TRADE_SIZE_BPS) / BASIS_POINTS < a →
      buyShares s c side a mo = (s, some MarketError.TradeExceedsMaxSize)) := by
  constructor
  · intro s side n mo
    unfold sellShares
    split_ifs
    all_goals simp
  · intro s c side a mo hact ha hsize
    unfold buyShares
    rw [if_neg (not_not_intro hact), if_neg (Nat.pos_iff_ne_zero.mp ha), if_pos hsize]

/-- Floor-division bound behind the constant-product update: writing
`d = rIn + add` and `q = floor(rIn * rOut / d)`, the post-trade product
`q * d` equals `rIn * rOut - (rIn * rOut mod d)`, so it undershoots the
pre-trade product by less than `d`; stated in both operand orders for the
two trade sides. -/
theorem constProd_floor_bound (rIn rOut add : Nat) (hIn : 0 < rIn)
    (hOut : rOut < U64_MOD) (hM : rIn + add < U64_MOD) :
    rIn * rOut <
      wrap64 (rIn * rOut / wrap64 (rIn + add)) * wrap64 (rIn + add)
        + (wrap64 (rIn * rOut / wrap64 (rIn + add)) + wrap64 (rIn + add)) ∧
    rIn * rOut <
      wrap64 (rIn + add) * wrap64 (rIn * rOut / wrap64 (rIn + add))
        + (wrap64 (rIn + add) + wrap64 (rIn * rOut / wrap64 (rIn + add))) := by
  have hpos : 0 < rIn + add := Nat.lt_of_lt_of_le hIn (Nat.le_add_right rIn add)
  have hq : rIn * rOut / (rIn + add) ≤ rOut := by
    have h1 : rIn * rOut / (rIn + add) ≤ rIn * rOut / rIn :=
      Nat.div_le_div_left (Nat.le_add_right rIn add) hIn
    rwa [Nat.mul_div_cancel_left rOut hIn] at h1
  have hwe : wrap64 (rIn + add) = rIn + add := Nat.mod_eq_of_lt hM
  have hwq : wrap64 (rIn * rOut / wrap64 (rIn + add)) = rIn * rOut / (rIn + add) := by
    rw [hwe]
    exact Nat.mod_eq_of_lt (Nat.lt_of_le_of_lt hq hOut)
  rw [hwq, hwe]
  have hfirst : rIn * rOut <
      rIn * rOut / (rIn + add) * (rIn + add) + (rIn * rOut / (rIn + add) + (rIn + add)) := by
    have hdm := Nat.div_add_mod (rIn * rOut) (rIn + add)
    have hmlt := Nat.mod_lt (rIn * rOut) hpos
    calc rIn * rOut
        = (rIn + add) * (rIn * rOut / (rIn + add)) + rIn * rOut % (rIn + add) := hdm.symm
      _ < (rIn + add) * (rIn * rOut / (rIn + add)) + (rIn + add) :=
          Nat.add_lt_add_left hmlt _
      _ = rIn * rOut / (rIn + add) * (rIn + add) + (rIn + add) := by
          rw [Nat.mul_comm]
      _ ≤ rIn * rOut / (rIn + add) * (rIn + add)
          + (rIn * rOut / (rIn + add) + (rIn + add)) :=
          Nat.add_le_add_left (Nat.le_add_left _ _) _
  refine ⟨hfirst, ?_⟩
  rw [Nat.mul_comm (rIn + add) (rIn * rOut / (rIn + add)),
    Nat.add_comm (rIn + add) (rIn * rOut / (rIn + add))]
  exact hfirst

/-- Counterexample to C1 as stated: on the deep pool (reserves
100,000/100,000, product 10^10) a successful 10,000 YES buy moves the
reserves to 109,970/90,933, whose product 9,999,902,010 is strictly smaller:
the constant product does decrease on a successful trade. -/
theorem c1_counterexample :
    (buyShares st100k 1 Outcome.Yes 10000 0).2 = none ∧
    (buyShares st100k 1 Outcome.Yes 10000 0).1.pool.yes_reserve
      * (buyShares st100k 1 Outcome.Yes 10000 0).1.pool.no_reserve
      < st100k.pool.yes_reserve * st100k.pool.no_reserve :=
  ⟨rfl, by decide⟩

/-- Claim C1, amended: on every successful buy or sell that does not
overflow the input reserve, the product can drop below its pre-trade value
only by the floor-truncation remainder, which is less than the new input
reserve: post-product plus the post-trade reserves always exceeds the
pre-trade product. -/
theorem c1_product_bound :
    (∀ (s s' : PMState) (c : Nat) (side : Outcome) (a mo : Nat),
      s.pool.yes_reserve + a < U64_MOD → s.pool.no_reserve + a < U64_MOD →
      buyShares s c side a mo = (s', none) →
      s.pool.yes_reserve * s.pool.no_reserve <
        s'.pool.yes_reserve * s'.pool.no_reserve
          + (s'.pool.yes_reserve + s'.pool.no_reserve)) ∧
    (∀ (s s' : PMState) (side : Outcome) (n mo : Nat),
      s.pool.yes_reserve + n < U64_MOD → s.pool.no_reserve + n < U64_MOD →
      sellShares s side n mo = (s', none) →
      s.pool.yes_reserve * s.pool.no_reserve <
        s'.pool.yes_reserve * s'.pool.no_reserve
          + (s'.pool.yes_reserve + s'.pool.no_reserve)) := by
  constructor
  · intro s s' c side a mo hya hna h
    obtain ⟨⟨hyes, hno⟩, rfl⟩ := buyShares_ok h
    have hyM : s.pool.yes_reserve < U64_MOD :=
      Nat.lt_of_le_of_lt (Nat.le_add_right _ a) hya
    have hnM : s.pool.no_reserve < U64_MOD :=
      Nat.lt_of_le_of_lt (Nat.le_add_right _ a) hna
    cases side with
    | Yes =>
      have hM : s.pool.no_reserve + (a - buyFee a) < U64_MOD :=
        Nat.lt_of_le_of_lt (Nat.add_le_add_left (Nat.sub_le a (buyFee a)) _) hna
      have hb := constProd_floor_bound s.pool.no_reserve s.pool.yes_reserve
        (a - buyFee a) hno hyM hM
      exact lt_of_eq_of_lt (Nat.mul_comm s.pool.yes_reserve s.pool.no_reserve) hb.1
    | No =>
      have hM : s.pool.yes_reserve + (a - buyFee a) < U64_MOD :=
        Nat.lt_of_le_of_lt (Nat.add_le_add_left (Nat.sub_le a (buyFee a)) _) hya
      have hb := constProd_floor_bound s.pool.yes_reserve s.pool.no_reserve
        (a - buyFee a) hyes hnM hM
      exact hb.2
  · intro s s' side n mo hya hna h
    obtain ⟨⟨hyes, hno⟩, rfl⟩ := sellShares_ok h
    have hyM : s.pool.yes_reserve < U64_MOD :=
      Nat.lt_of_le_of_lt (Nat.le_add_right _ n) hya
    have hnM : s.pool.no_reserve < U64_MOD :=
      Nat.lt_of_le_of_lt (Nat.le_add_right _ n) hna
    cases side with
    | Yes =>
      have hb := constProd_floor_bound s.pool.yes_reserve s.pool.no_reserve
        n hyes hnM hya
      exact hb.2
    | No =>
      have hb := constProd_floor_bound s.pool.no_reserve s.pool.yes_reserve
        n hno hyM hna
      exact lt_of_eq_of_lt (Nat.mul_comm s.pool.yes_reserve s.pool.no_reserve) hb.1

/-- Witness for C1 (amended): the bound instantiated on the concrete
successful buy of the counterexample. -/
theorem c1_witness :
    st100k.pool.yes_reserve + 10000 < U64_MOD ∧
    st100k.pool.no_reserve + 10000 < U64_MOD ∧
    buyShares st100k 1 Outcome.Yes 10000 0
      = ((buyShares st100k 1 Outcome.Yes 10000 0).1, none) ∧
    st100k.pool.yes_reserve * st100k.pool.no_reserve <
      (buyShares st100k 1 Outcome.Yes 10000 0).1.pool.yes_reserve
        * (buyShares st100k 1 Outcome.Yes 10000 0).1.pool.no_reserve
        + ((buyShares st100k 1 Outcome.Yes 10000 0).1.pool.yes_reserve
          + (buyShares st100k 1 Outcome.Yes 10000 0).1.pool.no_reserve) :=
  ⟨by decide, by decide, rfl,
   c1_product_bound.1 st100k (buyShares st100k 1 Outcome.Yes 10000 0).1 1 Outcome.Yes
     10000 0 (by decide) (by decide) rfl⟩

/-- Counterexample to C2 as stated: the round-trip example's shares_out is
907, below the dust floor MIN_SHARES_OUTPUT = 1000, so the buy with
min_shares_out = 0 fails with OutputTooSmall instead of succeeding. -/
theorem c2_counterexample :
    buySharesOut pool10k Outcome.Yes 1000 = 907 ∧
    buyShares st10k 1 Outcome.Yes 1000 0 = (st10k, some MarketError.OutputTooSmall) :=
  ⟨rfl, rfl⟩

/-- Claim C2, amended: from the 10,000/10,000 pool a YES buy of 1,000
computes fee 3, amount after fee 997, new NO reserve 10,997, new YES reserve
9,093 and shares_out 907; the call never succeeds: it fails with
SlippageExceeded when min_shares_out exceeds 907 and with OutputTooSmall
(907 being below MIN_SHARES_OUTPUT = 1000) otherwise. -/
theorem c2_roundtrip :
    ∀ mo : Nat,
      buyFee 1000 = 3 ∧
      1000 - buyFee 1000 = 997 ∧
      buyNewReserveIn pool10k Outcome.Yes 1000 = 10997 ∧
      buyNewReserveOut pool10k Outcome.Yes 1000 = 9093 ∧
      buySharesOut pool10k Outcome.Yes 1000 = 907 ∧
      buyShares st10k 1 Outcome.Yes 1000 mo =
        (st10k, some (if 907 < mo then MarketError.SlippageExceeded
                      else MarketError.OutputTooSmall)) := by
  intro mo
  refine ⟨rfl, rfl, rfl, rfl, rfl, ?_⟩
  unfold buyShares
  have h907 : buySharesOut st10k.pool Outcome.Yes 1000 = 907 := rfl
  rw [h907, if_neg (by decide), if_neg (by decide), if_neg (by decide), if_neg (by decide)]
  by_cases hmo : 907 < mo
  · rw [if_pos hmo, if_pos hmo]
  · rw [if_neg hmo, if_neg hmo, if_pos (by decide : (907 : Nat) < MIN_SHARES_OUTPUT)]

/-- Counterexample to C3 as stated: shares_out = 907 is below the dust
floor, yet with min_shares_out = 5000 the call fails with SlippageExceeded,
not OutputTooSmall (the slippage check runs first). -/
theorem c3_counterexample :
    buySharesOut pool10k Outcome.Yes 1000 = 907 ∧
    buySharesOut pool10k Outcome.Yes 1000 < MIN_SHARES_OUTPUT ∧
    buyShares st10k 1 Outcome.Yes 1000 5000 = (st10k, some MarketError.SlippageExceeded) :=
  ⟨rfl, by decide, rfl⟩

/-- Claim C3, amended: a buy that passes the status, amount, trade-size and
pool checks and whose computed shares_out is below MIN_SHARES_OUTPUT always
fails: with SlippageExceeded when min_shares_out > shares_out, and with
OutputTooSmall otherwise (in particular when min_shares_out = 0). -/
theorem c3_dust_errors :
    ∀ (s : PMState) (c : Nat) (side : Outcome) (a mo : Nat),
      s.market.status = MarketStatus.Active → 0 < a →
      a ≤ wrap64 (s.pool.total_liquidity * MAX_TRADE_SIZE_BPS) / BASIS_POINTS →
      0 < s.pool.yes_reserve → 0 < s.pool.no_reserve →
      buySharesOut s.pool side a < MIN_SHARES_OUTPUT →
      buyShares s c side a mo =
        (s, some (if buySharesOut s.pool side a < mo then MarketError.SlippageExceeded
                  else MarketError.OutputTooSmall)) := by
  intro s c side a mo hact ha hsize hyes hno hdust
  unfold buyShares
  rw [if_neg (not_not_intro hact), if_neg (Nat.pos_iff_ne_zero.mp ha),
    if_neg (Nat.not_lt.mpr hsize), if_neg (not_not_intro ⟨hyes, hno⟩)]
  by_cases hmo : buySharesOut s.pool side a < mo
  · rw [if_pos hmo, if_pos hmo]
  · rw [if_neg hmo, if_neg hmo, if_pos hdust]

/-- Witness for C3 (amended): the round-trip pool with min_shares_out = 0
fails with OutputTooSmall. -/
theorem c3_witness :
    st10k.market.status = MarketStatus.Active ∧
    buySharesOut st10k.pool Outcome.Yes 1000 < MIN_SHARES_OUTPUT ∧
    buyShares st10k 1 Outcome.Yes 1000 0 =
      (st10k, some (if buySharesOut st10k.pool Outcome.Yes 1000 < 0
                    then MarketError.SlippageExceeded else MarketError.OutputTooSmall)) :=
  ⟨rfl, by decide,
   c3_dust_errors st10k 1 Outcome.Yes 1000 0 rfl (by decide) (by decide)
     (by decide) (by decide) (by decide)⟩

/-- MarketInv transfers across any operation that preserves the status and
the three resolution fields. -/
theorem MarketInv_of_eq_fields {m m' : Market} (hs : m'.status = m.status)
    (ho : m'.outcome = m.outcome) (hp : m'.resolution_price = m.resolution_price)
    (ht : m'.resolution_timestamp = m.resolution_timestamp)
    (h : MarketInv m) : MarketInv m' := by
  constructor
  · intro hres
    rw [hs] at hres
    obtain ⟨h1, h2, h3⟩ := h.1 hres
    refine ⟨?_, ?_, ?_⟩
    · rw [ho]; exact h1
    · rw [hp]; exact h2
    · rw [ht]; exact h3
  · intro hres
    rw [hs] at hres
    obtain ⟨h1, h2, h3⟩ := h.2 hres
    refine ⟨?_, ?_, ?_⟩
    · rw [ho]; exact h1
    · rw [hp]; exact h2
    · rw [ht]; exact h3

/-- Claim C8: in every state reachable from create_market through any
sequence of operations, the outcome, resolution price and resolution
timestamp are all present exactly when the status is Resolved, and all
absent otherwise (in particular on a Cancelled market). -/
theorem c8_resolution_fields_inv : ∀ s : PMState, Reach s → MarketInv s.market := by
  intro s h
  induction h with
  | create now fresh auth mid strike expiration conf descr m p pos lp v hc =>
    obtain ⟨hst, ho, hp, ht⟩ := createMarket_ok hc
    constructor
    · intro hres
      rw [hst] at hres
      exact absurd hres (by decide)
    · intro _
      exact ⟨ho, hp, ht⟩
  | step s1 s2 hr hstep ih =>
    cases hstep with
    | initPoolStep init auth pool lp hinit => exact ih
    | addLiq sX lp c amount minLp h =>
      have hm := addLiquidity_market_eq h
      rw [hm]
      exact ih
    | removeLiq sX lp lpT minOut h =>
      have hm := removeLiquidity_market_eq h
      rw [hm]
      exact ih
    | buy sX pos c side a mo h =>
      obtain ⟨-, rfl⟩ := buyShares_ok h
      have hf := buyApply_market_frame { s1 with position := pos } c side a
      exact MarketInv_of_eq_fields hf.1 hf.2.1 hf.2.2.1 hf.2.2.2 ih
    | sell sX pos side n mo h =>
      obtain ⟨-, rfl⟩ := sellShares_ok h
      have hf := sellApply_market_frame { s1 with position := pos } side n
      exact MarketInv_of_eq_fields hf.1 hf.2.1 hf.2.2.1 hf.2.2.2 ih
    | resolve sX now priceRead h =>
      obtain ⟨-, -, p, -, -, rfl⟩ := resolveMarket_ok h
      constructor
      · intro _
        exact ⟨rfl, rfl, rfl⟩
      · intro hne
        exact absurd rfl hne
    | claim sX pos c h =>
      have hm := claimWinnings_market_eq h
      rw [hm]
      exact ih
    | cancel sX c h =>
      obtain ⟨hact, rfl⟩ := cancelMarket_ok h
      constructor
      · intro hres
        exact MarketStatus.noConfusion hres
      · intro _
        have hne : s1.market.status ≠ MarketStatus.Resolved := by
          rw [hact]
          decide
        obtain ⟨h1, h2, h3⟩ := ih.2 hne
        exact ⟨h1, h2, h3⟩

/-- Witness for C8: the invariant holds of the concrete market produced by a
concrete create_market call. -/
theorem c8_witness : MarketInv mkt0 :=
  c8_resolution_fields_inv st10k
    (Reach.create 0 true 7 1 50000000 100 200000 "" mkt0 pool10k pos0
      { user := 7, lp_tokens := 20000 } 20000 rfl)

/-- Witness for C10: on the deep pool (max trade 20,000) a 30,000 buy fails
with TradeExceedsMaxSize. -/
theorem c10_witness :
    st100k.market.status = MarketStatus.Active ∧ 0 < 30000 ∧
    wrap64 (st100k.pool.total_liquidity * MAX_TRADE_SIZE_BPS) / BASIS_POINTS < 30000 ∧
    buyShares st100k 1 Outcome.Yes 30000 0 = (st100k, some MarketError.TradeExceedsMaxSize) :=
  ⟨rfl, by decide, by decide,
   c10_sell_no_max_size.2 st100k 1 Outcome.Yes 30000 0 rfl (by decide) (by decide)⟩

end PredictionMarket
